import Mathlib

/-!
Verification of the rtags indexing pipeline (src/rdm/Indexer.cpp) against its
natural-language specification.

The development is a shallow embedding: Qt containers become Lean lists,
finsets and association lists; the LevelDB tables become association lists
keyed by the same keys the code uses; the stateful methods become pure
functions from a state value to a state value plus the observable effects
(notifications, emitted signals, early returns).  Unless a doc comment says
`Modelled from the spec:`, every definition is translated from the source of
Indexer.cpp, keeping its control flow, its evaluation order and its names.
-/

/-- RTags::Location — a canonical absolute path plus a byte offset.  The
Symbol-table key produced by `Location::key(Padded)` is the pair serialized as
`"<path>,<zero-padded offset>"`; since the padded offset contains no comma the
serialization is injective and splitting at the last comma recovers `path`
exactly, so the embedding keys the Symbol table by the `Location` itself. -/
structure Location where
  path : String
  offset : Nat
deriving DecidableEq, Repr

/-- Rdm::CursorInfo — the per-location symbol record.  `kind` is the clang
cursor-kind enum value, embedded as a `Nat`. -/
structure CursorInfo where
  kind : Nat
  symbolLength : Nat
  target : Option Location
  references : Finset Location
deriving DecidableEq

/-- The default-constructed CursorInfo, which `Rdm::readValue` yields for a
key that is absent from the Symbol table. -/
def CursorInfo.empty : CursorInfo := ⟨0, 0, none, ∅⟩

/-- Modelled from the spec: `Rdm::CursorInfo::unite` is not under src/ (only
its caller in IndexerSyncer::run is).  Spec §3: the merge takes the union of
`references`; `target` is filled if currently empty; `kind` and
`symbol_length` come from whichever side has a non-zero `symbol_length`
(first writer wins); the merge returns true iff any field changed. -/
def CursorInfo.unite (c added : CursorInfo) : CursorInfo × Bool :=
  let c1 : CursorInfo :=
    if c.symbolLength = 0 then
      { c with kind := added.kind, symbolLength := added.symbolLength }
    else c
  let c2 : CursorInfo :=
    { c1 with
      target := if c1.target = none then added.target else c1.target,
      references := c1.references ∪ added.references }
  (c2, decide (c2 ≠ c))

/-- Modelled from the spec: `Rdm::CursorInfo::dirty` is not under src/ (only
its caller in DirtyJob::dirty is).  Spec §4.G: it removes every reference
Location whose path is in the dirty set and clears `target` if its path is in
the dirty set, reporting whether anything changed. -/
def CursorInfo.dirtied (c : CursorInfo) (dirty : Finset String) : CursorInfo × Bool :=
  let target' : Option Location :=
    match c.target with
    | some l => if l.path ∈ dirty then none else some l
    | none => none
  let refs' := c.references.filter (fun l => l.path ∉ dirty)
  let c' : CursorInfo := { c with target := target', references := refs' }
  (c', decide (c' ≠ c))

/-! ## Store façade

Each LevelDB table is embedded as an association list in iteration order.
`readValue` on an absent key yields a default-constructed value, which the
lookup functions below reproduce. -/

/-- Point lookup returning a default-constructed `QSet` on a missing key,
as `Rdm::readValue<QSet<...>>` does. -/
def lookupSet (store : List (String × Finset Location)) (k : String) : Finset Location :=
  match store.find? (fun e => e.1 = k) with
  | some e => e.2
  | none => ∅

/-- Point lookup for the Dependency table (path-set values). -/
def lookupPaths (store : List (String × Finset String)) (k : String) : Finset String :=
  match store.find? (fun e => e.1 = k) with
  | some e => e.2
  | none => ∅

/-- Point lookup for the Symbol table, defaulting to `CursorInfo.empty`. -/
def lookupInfo (store : List (Location × CursorInfo)) (k : Location) : CursorInfo :=
  match store.find? (fun e => e.1 = k) with
  | some e => e.2
  | none => CursorInfo.empty

/-- A batched `Put`: replace the value when the key is present, append the
pair otherwise. -/
def storePut {κ α : Type} [DecidableEq κ] (store : List (κ × α)) (k : κ) (v : α) :
    List (κ × α) :=
  if store.any (fun e => e.1 = k) then
    store.map (fun e => if e.1 = k then (k, v) else e)
  else
    store ++ [(k, v)]

/-- Applying an atomic write batch of puts to a table
(`db->Write(WriteOptions(), &batch)`). -/
def applyBatch {κ α : Type} [DecidableEq κ] (store : List (κ × α))
    (batch : List (κ × α)) : List (κ × α) :=
  batch.foldl (fun st e => storePut st e.1 e.2) store

/-! ## IndexerSyncer (Accumulator & Flusher)

`IndexerSyncer::run` swaps the four buffers out under the mutex and flushes
each non-empty one into its table, staging a put per changed entry and
committing the batch only when some entry changed.  A failed `db.open` makes
`run` return, ending the flusher thread. -/

/-- The four in-memory merge buffers of the syncer, in the iteration order of
their hashes. -/
structure SyncerBuffers where
  symbols : List (Location × CursorInfo)
  symbolNames : List (String × Finset Location)
  dependencies : List (String × Finset String)
  informations : List (String × List String)
deriving DecidableEq

/-- The freshly default-constructed local buffers the swap leaves behind. -/
def SyncerBuffers.empty : SyncerBuffers := ⟨[], [], [], []⟩

/-- The four persistent tables. -/
structure Stores where
  symbolStore : List (Location × CursorInfo)
  symbolNameStore : List (String × Finset Location)
  dependencyStore : List (String × Finset String)
  fileInfoStore : List (String × List String)
deriving DecidableEq

/-- Which of the four `db.open` calls succeed during one flush cycle. -/
structure OpenOk where
  sn : Bool
  sym : Bool
  dep : Bool
  fi : Bool
deriving DecidableEq

/-- One SymbolName buffer entry: read `current`, union in `added`, stage a put
iff the size grew (`current.size() != oldSize` after `current += added`). -/
def snStage (store : List (String × Finset Location)) (e : String × Finset Location) :
    Option (String × Finset Location) :=
  let current := lookupSet store e.1
  let merged := current ∪ e.2
  if merged.card ≠ current.card then some (e.1, merged) else none

/-- SymbolName flush: build the batch over the swapped buffer, commit it only
if some entry changed (the `changed` flag of the source loop). -/
def flushSymbolNames (store : List (String × Finset Location))
    (buf : List (String × Finset Location)) : List (String × Finset Location) :=
  let batch := buf.filterMap (snStage store)
  if batch ≠ [] then applyBatch store batch else store

/-- One Symbol buffer entry: read the existing `CursorInfo`, `unite` the added
one, stage a put iff `unite` reported a change. -/
def symStage (store : List (Location × CursorInfo)) (e : Location × CursorInfo) :
    Option (Location × CursorInfo) :=
  let current := lookupInfo store e.1
  let united := current.unite e.2
  if united.2 then some (e.1, united.1) else none

/-- Symbol flush, committing only when some `unite` changed an entry. -/
def flushSymbols (store : List (Location × CursorInfo))
    (buf : List (Location × CursorInfo)) : List (Location × CursorInfo) :=
  let batch := buf.filterMap (symStage store)
  if batch ≠ [] then applyBatch store batch else store

/-- One Dependency buffer entry: stage a put iff
`current.unite(added).size() > oldSize`. -/
def depStage (store : List (String × Finset String)) (e : String × Finset String) :
    Option (String × Finset String) :=
  let current := lookupPaths store e.1
  let oldSize := current.card
  let merged := current ∪ e.2
  if merged.card > oldSize then some (e.1, merged) else none

/-- Dependency flush, committing only when some entry grew. -/
def flushDependencies (store : List (String × Finset String))
    (buf : List (String × Finset String)) : List (String × Finset String) :=
  let batch := buf.filterMap (depStage store)
  if batch ≠ [] then applyBatch store batch else store

/-- The body of one `IndexerSyncer::run` cycle after the swap: flush the four
swapped buffers in source order (SymbolName, Symbol, Dependency,
FileInformation), each guarded by non-emptiness; a failed open returns at
once (second component `true` = the thread returned).  FileInformation stages
a put per entry unconditionally and always commits its batch. -/
def syncerFlushOnce (ok : OpenOk) (st : Stores) (b : SyncerBuffers) : Stores × Bool :=
  if b.symbolNames ≠ [] ∧ ok.sn = false then (st, true) else
  let st1 := if b.symbolNames ≠ [] then
      { st with symbolNameStore := flushSymbolNames st.symbolNameStore b.symbolNames }
    else st
  if b.symbols ≠ [] ∧ ok.sym = false then (st1, true) else
  let st2 := if b.symbols ≠ [] then
      { st1 with symbolStore := flushSymbols st1.symbolStore b.symbols }
    else st1
  if b.dependencies ≠ [] ∧ ok.dep = false then (st2, true) else
  let st3 := if b.dependencies ≠ [] then
      { st2 with dependencyStore := flushDependencies st2.dependencyStore b.dependencies }
    else st2
  if b.informations ≠ [] ∧ ok.fi = false then (st3, true) else
  let st4 := if b.informations ≠ [] then
      { st3 with fileInfoStore := applyBatch st3.fileInfoStore b.informations }
    else st3
  (st4, false)

/-- The wait guard of the flusher loop, exactly line 136 of the source:
`while (mSymbols.isEmpty() && mSymbolNames.isEmpty()) wait(...)`. -/
def flusherWaits (b : SyncerBuffers) : Bool :=
  b.symbols.isEmpty && b.symbolNames.isEmpty

/-- What one pass of the flusher loop ends as. -/
inductive SyncStatus
  | terminated
  | waited
  | flushed
deriving DecidableEq

/-- One full pass of the `IndexerSyncer::run` loop: return if stopped; wait
while both the symbols and symbol-names buffers are empty; otherwise swap all
four buffers out (leaving them empty) and flush.  An open failure during the
flush makes `run` return — the pass ends `terminated` with the swapped data
dropped. -/
def syncerIteration (stopped : Bool) (ok : OpenOk) (st : Stores)
    (pending : SyncerBuffers) : Stores × SyncerBuffers × SyncStatus :=
  if stopped then (st, pending, .terminated)
  else if flusherWaits pending then (st, pending, .waited)
  else
    let r := syncerFlushOnce ok st pending
    (r.1, SyncerBuffers.empty, if r.2 then .terminated else .flushed)

/-! ## Job coordinator (Indexer)

`Indexer::index` and `Indexer::onJobDone` act on the coordinator state held
in IndexerImpl under `implMutex`.  Job ids are non-negative (`lastJobId`
starts at 0 and only ever increments), so they are embedded as `Nat`. -/

/-- The coordinator state guarded by `implMutex`, plus the flush-cadence
counter and the wall-timer flag. -/
structure CoordState where
  indexing : Finset String
  jobs : Finset Nat
  lastJobId : Nat
  jobCounter : Nat
  timerRunning : Bool
deriving DecidableEq

/-- The id-allocation loop of `Indexer::index`:
`do { id = lastJobId++; } while (jobs.contains(id));` — the first id at or
after `start` that is not a live job id. -/
def allocId (jobs : Finset Nat) (start : Nat) : Nat :=
  if h : start ∈ jobs then allocId jobs (start + 1) else start
termination_by (jobs.filter (fun i => start ≤ i)).card
decreasing_by
  apply Finset.card_lt_card
  constructor
  · intro i hi
    simp only [Finset.mem_filter] at hi ⊢
    exact ⟨hi.1, Nat.le_of_succ_le hi.2⟩
  · intro hsub
    have hstart : start ∈ jobs.filter (fun i => start ≤ i) := by
      simp only [Finset.mem_filter]
      exact ⟨h, le_refl start⟩
    have := hsub hstart
    simp only [Finset.mem_filter] at this
    omega

/-- `Indexer::index(input, arguments)`: return −1 when `input` is already
being indexed; otherwise allocate an id, insert `input` into `indexing`,
register the job, start the wall timer if it is not running, submit the job,
and return the id. -/
def Indexer.index (st : CoordState) (input : String) : Int × CoordState :=
  if input ∈ st.indexing then (-1, st)
  else
    let id := allocId st.jobs st.lastJobId
    (Int.ofNat id,
      { st with
        indexing := insert input st.indexing,
        jobs := insert id st.jobs,
        lastJobId := id + 1,
        timerRunning := true })

/-- The observable effects of one `Indexer::onJobDone` call. -/
structure JobDoneResult where
  state : CoordState
  wokeAll : Bool
  notified : Bool
deriving DecidableEq

/-- `Indexer::onJobDone(id, input)`: drop the job id, remove `input` from
`indexing` (waking the PCH waiters when it was present), bump `jobCounter`;
then the nested conditionals of lines 992-1000: the outer guard is
`jobs.isEmpty() || jobCounter == SYNCINTERVAL` (SYNCINTERVAL = 10), but the
inner block — syncer notify, timer stop — runs only under a second
`jobs.isEmpty()` test. -/
def Indexer.onJobDone (st : CoordState) (id : Nat) (input : String) : JobDoneResult :=
  let jobs := st.jobs.erase id
  let wokeAll := input ∈ st.indexing
  let indexing := st.indexing.erase input
  let jobCounter := st.jobCounter + 1
  let inner : Bool × Bool :=
    if jobs = ∅ ∨ jobCounter = 10 then
      if jobs = ∅ then (true, false) else (false, st.timerRunning)
    else (false, st.timerRunning)
  { state :=
      { st with
        indexing := indexing, jobs := jobs, jobCounter := jobCounter,
        timerRunning := inner.2 },
    wokeAll := wokeAll,
    notified := inner.1 }

/-! ## The PCH wait loop of IndexerJob::run

`extractPchFiles` collects the values following every `-include-pch` flag;
the wait loop then, under `implMutex`, drops errored headers from the args
and waits on `implCond` while any header is still being indexed. -/

/-- `extractPchFiles(args)`: the argument following each `-include-pch`,
skipping empty arguments. -/
def extractPchFiles : List String → List String :=
  go false
where
  /-- The loop with its `nextIsPch` flag. -/
  go (nextIsPch : Bool) : List String → List String
    | [] => []
    | arg :: rest =>
      if arg = "" then go nextIsPch rest
      else if nextIsPch then arg :: go false rest
      else if arg = "-include-pch" then go true rest
      else go false rest

/-- `QList::indexOf`: the first index holding the value, or −1. -/
def qIndexOf (args : List String) (x : String) : Int :=
  match args with
  | [] => -1
  | a :: rest =>
    if a = x then 0
    else
      let r := qIndexOf rest x
      if r < 0 then -1 else r + 1

/-- `QList::removeAt(i)`: drop the element at a valid index; an out-of-range
index (the source's assertion-violating case) is embedded as a no-op. -/
def qRemoveAt (args : List String) (i : Int) : List String :=
  if i < 0 then args else args.eraseIdx i.toNat

/-- The coordinator state the PCH loop reads under `implMutex` during one
pass: `pchHeaderError` and `indexing`. -/
structure PchEnv where
  err : Finset String
  idxg : Finset String
deriving DecidableEq

/-- One pass of the PCH wait loop body over the header list: an errored
header is looked up in the args (`idx = args.indexOf(pchHeader)`, asserted
`idx > 0`) and `removeAt(idx)`, `removeAt(idx - 1)` drop its value and flag;
a header still being indexed sets `wait` and breaks.  Returns the rewritten
args, the `wait` flag, and whether every `Q_ASSERT(idx > 0)` held. -/
def pchPass (env : PchEnv) : List String → List String → List String × Bool × Bool
  | [], args => (args, false, true)
  | h :: rest, args =>
    if h ∈ env.err then
      let idx := qIndexOf args h
      let ok := decide (0 < idx)
      let args' := qRemoveAt (qRemoveAt args idx) (idx - 1)
      let r := pchPass env rest args'
      (r.1, r.2.1, ok && r.2.2)
    else if h ∈ env.idxg then (args, true, true)
    else pchPass env rest args

/-- The `do { ... } while (wait)` loop: each pass sees the coordinator state
of the moment (the condition variable released `implMutex` in between), given
here as a trace of environments.  Returns the final args and whether every
assertion held, or `none` when the trace is exhausted while still waiting. -/
def pchLoop : List PchEnv → List String → List String → Option (List String × Bool)
  | [], _, _ => none
  | env :: envs, headers, args =>
    let r := pchPass env headers args
    if r.2.1 then
      match pchLoop envs headers r.1 with
      | none => none
      | some (a, ok) => some (a, r.2.2 && ok)
    else some (r.1, r.2.2)

/-! ## DirtyJob sweeps

`DirtyJob::dirty` scans the Symbol and SymbolName tables in order, staging a
delete or a put per touched entry and committing the batch at the end; over a
store with unique keys the batched scan equals the per-entry rewrite below. -/

/-- The per-entry action of the Symbol-table scan: a key whose path is dirty
is deleted; otherwise the decoded `CursorInfo` is dirtied, and when that
changed it, an emptied record is deleted and a changed one rewritten. -/
def sweepSymbolEntry (dirty : Finset String) (e : Location × CursorInfo) :
    Option (Location × CursorInfo) :=
  if e.1.path ∈ dirty then none
  else
    let r := e.2.dirtied dirty
    if r.2 then
      (if r.1.target = none ∧ r.1.references = ∅ then none else some (e.1, r.1))
    else some e

/-- The Symbol-table sweep of `DirtyJob::dirty`. -/
def DirtyJob.dirtySymbols (store : List (Location × CursorInfo)) (dirty : Finset String) :
    List (Location × CursorInfo) :=
  store.filterMap (sweepSymbolEntry dirty)

/-- The per-entry action of the SymbolName-table scan: erase every Location
whose path is dirty; if that changed the set, delete an emptied entry and
rewrite a shrunken one. -/
def sweepSymbolNameEntry (dirty : Finset String) (e : String × Finset Location) :
    Option (String × Finset Location) :=
  let locations := e.2.filter (fun l => l.path ∉ dirty)
  if locations ≠ e.2 then
    (if locations = ∅ then none else some (e.1, locations))
  else some e

/-- The SymbolName-table sweep of `DirtyJob::dirty`. -/
def DirtyJob.dirtySymbolNames (store : List (String × Finset Location))
    (dirty : Finset String) : List (String × Finset Location) :=
  store.filterMap (sweepSymbolNameEntry dirty)

/-! ## inclusionVisitor

Paths are taken as already canonical: `Path::canonicalized` is an external
collaborator of the core (spec §1) and is embedded as the identity. -/

/-- Whether `pre` is a leading substring of `s` (`strncmp(pre, s, |pre|) == 0`). -/
def strStarts (pre s : String) : Bool :=
  pre.toList.isPrefixOf s.toList

/-- `QByteArray::contains(path)`: `sub` occurs contiguously inside `s`. -/
def strContainsSub (s sub : String) : Bool :=
  (List.range (s.toList.length + 1)).any (fun i => sub.toList.isPrefixOf (s.toList.drop i))

/-- The guard at the head of `inclusionVisitor`: process a file iff its name
does not start with `/usr/` or does start with `/usr/home/`, and no default
argument contains its path. -/
def includeFilter (defaultArgs : List String) (fileName : String) : Bool :=
  (!(strStarts "/usr/" fileName) || strStarts "/usr/home/" fileName)
    && !(defaultArgs.any (fun arg => strContainsSub arg fileName))

/-- `mDependencies[k].insert(v)` on the job-local dependency hash, embedded
as a total map with the `QHash::operator[]` default of an empty set. -/
def depsInsert (deps : String → Finset String) (k v : String) : String → Finset String :=
  fun q => if q = k then insert v (deps k) else deps q

/-- `inclusionVisitor(included_file, include_stack, include_len, job)`:
record an edge `included → frame` for every frame of the include stack, the
self-edge on an empty stack, and — for a PCH job — the header into the PCH
transitive-dependency set.  Returns the updated `(mDependencies,
mPchDependencies)`. -/
def inclusionVisitor (defaultArgs : List String) (isPch : Bool)
    (deps : String → Finset String) (pchDeps : Finset String)
    (fileName : String) (includeStack : List String) :
    (String → Finset String) × Finset String :=
  if includeFilter defaultArgs fileName then
    let deps1 := includeStack.foldl (fun d frame => depsInsert d fileName frame) deps
    let deps2 := if includeStack.length = 0 then depsInsert deps1 fileName fileName else deps1
    let pch' := if isPch then insert fileName pchDeps else pchDeps
    (deps2, pch')
  else (deps, pchDeps)

/-! ## Indexer::onDirectoryChanged

The handler walks the watched set of the event's directory with a QSet
iterator `wit`/`wend` while separately holding the WatchedHash iterator `it`;
the source mutates the set through `it.value()`.  The embedding carries, for
each iterator, both the container it points into and its position, so every
use the source makes through an iterator can be checked: a dereference or
mutation through an iterator that is out of range, or aimed at a container
other than the one being walked, is undefined behavior in the original and
is embedded as the explicit outcome `invalidIter`. -/

/-- One `(filename, mtime)` member of a watched directory (`WatchedPair`). -/
structure WatchEntry where
  name : String
  mtime : Nat
deriving DecidableEq

/-- `Path::exists()` against an explicit filesystem of (path, mtime) pairs. -/
def fsExists (fs : List (String × Nat)) (p : String) : Bool :=
  fs.any (fun e => e.1 = p)

/-- `Path::lastModified()`; a missing file reads as 0. -/
def fsLastModified (fs : List (String × Nat)) (p : String) : Nat :=
  match fs.find? (fun e => e.1 = p) with
  | some e => e.2
  | none => 0

/-- `Path::fileName()`: the component after the last slash. -/
def pathFileName (s : String) : String :=
  (s.splitOn "/").getLastD s

/-- `isPch(args)` (line 894): the argument after the first `-x` decides. -/
def isPchArgs : List String → Bool
  | [] => false
  | a :: rest =>
    if a = "-x" then
      match rest with
      | b :: _ => decide (b = "c++-header" ∨ b = "c-header")
      | [] => false
    else isPchArgs rest

/-- `QSet::insert` on a watched set, embedded in iteration order. -/
def qsetInsert (entries : List WatchEntry) (e : WatchEntry) : List WatchEntry :=
  if entries.any (fun x => x = e) then entries else entries ++ [e]

/-- Replace the entry set of the `i`-th watched directory. -/
def setDirEntries (dirs : List (String × List WatchEntry)) (i : Nat)
    (entries : List WatchEntry) : List (String × List WatchEntry) :=
  dirs.set i ((dirs.getD i ("", [])).1, entries)

/-- The loop state of the scan: the watched map, the three iterators, and the
accumulators built for the DirtyJob. -/
structure DirScanState where
  dirs : List (String × List WatchEntry)
  dirIdx : Nat
  witDir : Nat
  witIdx : Nat
  wendDir : Nat
  wendLen : Nat
  dirtyFiles : Finset String
  pending : List String
  toIndex : List (String × List String)
  toIndexPch : List (String × List String)
deriving DecidableEq

/-- Outcome of the handler.  `invalidIter` marks the source reaching an
iterator use that is undefined behavior (see the section comment). -/
inductive DirResult
  | ok (watched : List (String × List WatchEntry)) (dirty : Finset String)
      (toIndexPch toIndex : List (String × List String))
  | watchMiss
  | storeOpenFailed
  | invalidIter
  | outOfFuel
deriving DecidableEq

/-- The dependency-hit branch: every dependent of the changed file is marked
dirty, and — when it still exists and the FileInformation table knows its
args — queued for re-indexing, PCH producers apart. -/
def processDeps (fs : List (String × Nat)) (fileInfo : List (String × List String))
    (depList : List String) (st : DirScanState) : DirScanState :=
  depList.foldl (fun s path =>
    let s1 : DirScanState := { s with dirtyFiles := insert path s.dirtyFiles }
    if fsExists fs path then
      match fileInfo.find? (fun e => e.1 = path) with
      | some e =>
        if isPchArgs e.2 then { s1 with toIndexPch := storePut s1.toIndexPch path e.2 }
        else { s1 with toIndex := storePut s1.toIndex path e.2 }
      | none => s1
    else s1) st

/-- The `while (wit != wend)` scan of `Indexer::onDirectoryChanged`, followed
by the re-arm of the pending files through `it.value()`.  A stale entry is
marked dirty, appended to `pending` and erased through `it.value()`; a
dependency miss logs and executes `++it; continue;` — advancing the
WatchedHash iterator `it`, not `wit`. -/
def dirScanLoop (fs : List (String × Nat)) (deps : List (String × List String))
    (fileInfo : List (String × List String)) (p : String) :
    Nat → DirScanState → DirResult
  | 0, _ => .outOfFuel
  | fuel + 1, st =>
    if st.witDir = st.wendDir ∧ st.witIdx = st.wendLen then
      match st.dirs.get? st.dirIdx with
      | none => .invalidIter
      | some d =>
        let entries := st.pending.foldl
          (fun es path => qsetInsert es ⟨pathFileName path, fsLastModified fs path⟩) d.2
        .ok (setDirEntries st.dirs st.dirIdx entries) st.dirtyFiles st.toIndexPch st.toIndex
    else
      match (st.dirs.get? st.witDir).bind (fun d => d.2.get? st.witIdx) with
      | none => .invalidIter
      | some w =>
        let file := p ++ w.name
        if fsExists fs file = false ∨ fsLastModified fs file ≠ w.mtime then
          if st.dirIdx = st.witDir then
            match st.dirs.get? st.dirIdx with
            | none => .invalidIter
            | some d =>
              if st.witIdx < d.2.length then
                let st1 : DirScanState := { st with
                  dirs := setDirEntries st.dirs st.dirIdx (d.2.eraseIdx st.witIdx),
                  dirtyFiles := insert file st.dirtyFiles,
                  pending := st.pending ++ [file],
                  wendDir := st.dirIdx,
                  wendLen := d.2.length - 1 }
                match deps.find? (fun e => e.1 = file) with
                | none =>
                  dirScanLoop fs deps fileInfo p fuel { st1 with dirIdx := st1.dirIdx + 1 }
                | some e =>
                  dirScanLoop fs deps fileInfo p fuel (processDeps fs fileInfo e.2 st1)
              else .invalidIter
          else .invalidIter
        else
          dirScanLoop fs deps fileInfo p fuel { st with witIdx := st.witIdx + 1 }

/-- `Indexer::onDirectoryChanged(path)`: an unknown directory is logged and
ignored (`watchMiss`); a failed FileInformation open aborts; otherwise the
scan loop runs with `it`, `wit` and `wend` all aimed at the found entry. -/
def Indexer.onDirectoryChanged (openFI : Bool) (fs : List (String × Nat))
    (deps : List (String × List String)) (fileInfo : List (String × List String))
    (watched : List (String × List WatchEntry)) (p : String) : DirResult :=
  match watched.findIdx? (fun d => d.1 = p) with
  | none => .watchMiss
  | some i =>
    if openFI = false then .storeOpenFailed
    else
      let fuel := watched.foldl (fun n d => n + d.2.length) 0 + deps.length + 2
      dirScanLoop fs deps fileInfo p fuel
        { dirs := watched, dirIdx := i, witDir := i, witIdx := 0,
          wendDir := i, wendLen := (watched.getD i ("", [])).2.length,
          dirtyFiles := ∅, pending := [], toIndex := [], toIndexPch := [] }

/-- A concrete open configuration where only the Dependency open fails. -/
def c2Open : OpenOk := ⟨true, true, false, true⟩

/-- A concrete store state with one Dependency entry. -/
def c2Stores : Stores := ⟨[], [], [("/d.h", {"/t.cpp"})], []⟩

/-- Concrete swapped buffers: a symbol-name entry (so a flush cycle runs and
the SymbolName table is flushed first) and a dependency entry that the failed
open then drops. -/
def c2Buffers : SyncerBuffers :=
  ⟨[], [("foo", {⟨"/a.cpp", 1⟩})], [("/d.h", {"/u.cpp"})], []⟩

/-! ## Helper lemmas -/

theorem map_put_self {κ α : Type} [DecidableEq κ] (store : List (κ × α)) (k : κ) (v : α)
    (hval : ∀ e ∈ store, e.1 = k → e.2 = v) :
    store.map (fun e => if e.1 = k then (k, v) else e) = store := by
  induction store with
  | nil => rfl
  | cons a t ih =>
    simp only [List.map_cons]
    congr 1
    · by_cases h : a.1 = k
      · have hv := hval a (by simp) h
        rw [if_pos h]
        cases a
        simp_all
      · rw [if_neg h]
    · exact ih (fun e he hk => hval e (List.mem_cons_of_mem _ he) hk)

theorem storePut_self {κ α : Type} [DecidableEq κ] (store : List (κ × α)) (k : κ) (v : α)
    (hmem : store.any (fun e => decide (e.1 = k)) = true)
    (hval : ∀ e ∈ store, e.1 = k → e.2 = v) :
    storePut store k v = store := by
  unfold storePut
  rw [if_pos hmem]
  exact map_put_self store k v hval

theorem applyBatch_self {κ α : Type} [DecidableEq κ] (store : List (κ × α))
    (batch : List (κ × α)) (h : ∀ e ∈ batch, storePut store e.1 e.2 = store) :
    applyBatch store batch = store := by
  induction batch with
  | nil => rfl
  | cons a t ih =>
    unfold applyBatch
    simp only [List.foldl_cons]
    rw [h a (by simp)]
    exact ih (fun e he => h e (List.mem_cons_of_mem _ he))

theorem flushSymbolNames_self (store : List (String × Finset Location))
    (buf : List (String × Finset Location))
    (h : ∀ e ∈ buf, e.2 ⊆ lookupSet store e.1) :
    flushSymbolNames store buf = store := by
  have hb : buf.filterMap (snStage store) = [] := by
    rw [List.filterMap_eq_nil_iff]
    intro e he
    have hm : lookupSet store e.1 ∪ e.2 = lookupSet store e.1 :=
      Finset.union_eq_left.mpr (h e he)
    simp [snStage, hm]
  unfold flushSymbolNames
  simp [hb]

theorem flushSymbols_self (store : List (Location × CursorInfo))
    (buf : List (Location × CursorInfo))
    (h : ∀ e ∈ buf, ((lookupInfo store e.1).unite e.2).2 = false) :
    flushSymbols store buf = store := by
  have hb : buf.filterMap (symStage store) = [] := by
    rw [List.filterMap_eq_nil_iff]
    intro e he
    simp [symStage, h e he]
  unfold flushSymbols
  simp [hb]

theorem flushDependencies_self (store : List (String × Finset String))
    (buf : List (String × Finset String))
    (h : ∀ e ∈ buf, e.2 ⊆ lookupPaths store e.1) :
    flushDependencies store buf = store := by
  have hb : buf.filterMap (depStage store) = [] := by
    rw [List.filterMap_eq_nil_iff]
    intro e he
    have hm : lookupPaths store e.1 ∪ e.2 = lookupPaths store e.1 :=
      Finset.union_eq_left.mpr (h e he)
    simp [depStage, hm]
  unfold flushDependencies
  simp [hb]

/-! ## Claims -/

/-- Claim C1 — code-bug evidence.  With one job still live (`jobs = {1, 2}`,
id 1 finishing) and `jobCounter` reaching 10, `onJobDone` does NOT notify the
syncer: the `jobCounter == SYNCINTERVAL` disjunct of line 992 guards a block
whose body re-tests `jobs.isEmpty()`, so the counter alone never triggers a
notification, while the claim says it must. -/
theorem onJobDone_counter_ten_no_notify :
    (Indexer.onJobDone ⟨{"/a.cpp"}, {1, 2}, 3, 9, true⟩ 1 "/a.cpp").notified = false ∧
    (Indexer.onJobDone ⟨{"/a.cpp"}, {1, 2}, 3, 9, true⟩ 1 "/a.cpp").state.jobCounter = 10 ∧
    (Indexer.onJobDone ⟨{"/a.cpp"}, {1, 2}, 3, 9, true⟩ 1 "/a.cpp").state.jobs ≠ ∅ := by
  decide

/-- Claim C2 — counterexample.  When the SymbolName open fails, the swapped
buffer entry is gone from the pending buffers (they come back empty) and the
flusher thread has terminated, so nothing remains for a later flush cycle;
the claim said the buffered entries remain pending. -/
theorem syncer_open_fail_drops_buffers_cex :
    (syncerIteration false ⟨false, true, true, true⟩ ⟨[], [], [], []⟩
        ⟨[], [("foo", {⟨"/a.cpp", 1⟩})], [], []⟩).2.1.symbolNames = [] ∧
    (syncerIteration false ⟨false, true, true, true⟩ ⟨[], [], [], []⟩
        ⟨[], [("foo", {⟨"/a.cpp", 1⟩})], [], []⟩).2.2 = SyncStatus.terminated := by
  decide

theorem flushSymbolNames_nil (store : List (String × Finset Location)) :
    flushSymbolNames store [] = store := by
  simp [flushSymbolNames]

theorem flushSymbols_nil (store : List (Location × CursorInfo)) :
    flushSymbols store [] = store := by
  simp [flushSymbols]

theorem flushDependencies_nil (store : List (String × Finset String)) :
    flushDependencies store [] = store := by
  simp [flushDependencies]

/-- Claim C2 — amended.  When the flusher fails to open a KV table whose
swapped buffer is non-empty, `run` returns instead of flushing on: the
failing table and every table after it in flush order keep their prior
contents, tables already flushed earlier in the same cycle keep their flushed
contents, the swapped-out buffers are discarded (the pending buffers come
back empty), and the flusher thread terminates, so no later cycle applies the
dropped entries.  One conjunct per failing table, in the source's flush order
SymbolName, Symbol, Dependency, FileInformation; a flush cycle runs whenever
the symbols or symbol-names buffer is non-empty (the wait guard of line
136). -/
theorem syncer_open_fail_terminates (ok : OpenOk) (st : Stores) (pending : SyncerBuffers) :
    (pending.symbolNames ≠ [] → ok.sn = false →
      syncerIteration false ok st pending = (st, SyncerBuffers.empty, .terminated)) ∧
    ((pending.symbolNames = [] ∨ ok.sn = true) →
      pending.symbols ≠ [] → ok.sym = false →
      (syncerIteration false ok st pending).1.symbolStore = st.symbolStore ∧
      (syncerIteration false ok st pending).1.dependencyStore = st.dependencyStore ∧
      (syncerIteration false ok st pending).1.fileInfoStore = st.fileInfoStore ∧
      (syncerIteration false ok st pending).1.symbolNameStore =
        flushSymbolNames st.symbolNameStore pending.symbolNames ∧
      (syncerIteration false ok st pending).2.1 = SyncerBuffers.empty ∧
      (syncerIteration false ok st pending).2.2 = SyncStatus.terminated) ∧
    ((pending.symbolNames = [] ∨ ok.sn = true) →
      (pending.symbols = [] ∨ ok.sym = true) →
      pending.dependencies ≠ [] → ok.dep = false →
      (pending.symbols ≠ [] ∨ pending.symbolNames ≠ []) →
      (syncerIteration false ok st pending).1.dependencyStore = st.dependencyStore ∧
      (syncerIteration false ok st pending).1.fileInfoStore = st.fileInfoStore ∧
      (syncerIteration false ok st pending).1.symbolNameStore =
        flushSymbolNames st.symbolNameStore pending.symbolNames ∧
      (syncerIteration false ok st pending).1.symbolStore =
        flushSymbols st.symbolStore pending.symbols ∧
      (syncerIteration false ok st pending).2.1 = SyncerBuffers.empty ∧
      (syncerIteration false ok st pending).2.2 = SyncStatus.terminated) ∧
    ((pending.symbolNames = [] ∨ ok.sn = true) →
      (pending.symbols = [] ∨ ok.sym = true) →
      (pending.dependencies = [] ∨ ok.dep = true) →
      pending.informations ≠ [] → ok.fi = false →
      (pending.symbols ≠ [] ∨ pending.symbolNames ≠ []) →
      (syncerIteration false ok st pending).1.fileInfoStore = st.fileInfoStore ∧
      (syncerIteration false ok st pending).1.symbolNameStore =
        flushSymbolNames st.symbolNameStore pending.symbolNames ∧
      (syncerIteration false ok st pending).1.symbolStore =
        flushSymbols st.symbolStore pending.symbols ∧
      (syncerIteration false ok st pending).1.dependencyStore =
        flushDependencies st.dependencyStore pending.dependencies ∧
      (syncerIteration false ok st pending).2.1 = SyncerBuffers.empty ∧
      (syncerIteration false ok st pending).2.2 = SyncStatus.terminated) := by
  have hiter : pending.symbols ≠ [] ∨ pending.symbolNames ≠ [] →
      syncerIteration false ok st pending =
        ((syncerFlushOnce ok st pending).1, SyncerBuffers.empty,
          if (syncerFlushOnce ok st pending).2 = true then SyncStatus.terminated
          else SyncStatus.flushed) := by
    intro h
    have hw : flusherWaits pending = false := by
      unfold flusherWaits
      rcases pending with ⟨s, sn, d, i⟩
      rcases h with h | h
      · cases s with
        | nil => simp at h
        | cons a t => simp
      · cases sn with
        | nil => simp at h
        | cons a t => simp
    unfold syncerIteration
    simp [hw]
  refine ⟨?_, ?_, ?_, ?_⟩
  · intro h1 h2
    rw [hiter (Or.inr h1)]
    have hf : syncerFlushOnce ok st pending = (st, true) := by
      unfold syncerFlushOnce
      rw [if_pos ⟨h1, h2⟩]
    rw [hf]
    simp
  · intro h0 h1 h2
    rw [hiter (Or.inl h1)]
    by_cases hbn : pending.symbolNames = []
    · simp [syncerFlushOnce, hbn, h1, h2, flushSymbolNames_nil]
    · have hsn : ok.sn = true := h0.resolve_left hbn
      simp [syncerFlushOnce, hbn, hsn, h1, h2]
  · intro h0 h1 h2 h3 hrun
    rw [hiter hrun]
    by_cases hbn : pending.symbolNames = []
    · by_cases hbs : pending.symbols = []
      · exact absurd hrun (by simp [hbn, hbs])
      · have hsym : ok.sym = true := h1.resolve_left hbs
        simp [syncerFlushOnce, hbn, hbs, hsym, h2, h3, flushSymbolNames_nil]
    · have hsn : ok.sn = true := h0.resolve_left hbn
      by_cases hbs : pending.symbols = []
      · simp [syncerFlushOnce, hbn, hbs, hsn, h2, h3, flushSymbols_nil]
      · have hsym : ok.sym = true := h1.resolve_left hbs
        simp [syncerFlushOnce, hbn, hbs, hsn, hsym, h2, h3]
  · intro h0 h1 h2 h3 h4 hrun
    rw [hiter hrun]
    by_cases hbn : pending.symbolNames = []
    · by_cases hbs : pending.symbols = []
      · exact absurd hrun (by simp [hbn, hbs])
      · have hsym : ok.sym = true := h1.resolve_left hbs
        by_cases hbd : pending.dependencies = []
        · simp [syncerFlushOnce, hbn, hbs, hbd, hsym, h3, h4,
            flushSymbolNames_nil, flushDependencies_nil]
        · have hdep : ok.dep = true := h2.resolve_left hbd
          simp [syncerFlushOnce, hbn, hbs, hbd, hsym, hdep, h3, h4, flushSymbolNames_nil]
    · have hsn : ok.sn = true := h0.resolve_left hbn
      by_cases hbs : pending.symbols = []
      · by_cases hbd : pending.dependencies = []
        · simp [syncerFlushOnce, hbn, hbs, hbd, hsn, h3, h4,
            flushSymbols_nil, flushDependencies_nil]
        · have hdep : ok.dep = true := h2.resolve_left hbd
          simp [syncerFlushOnce, hbn, hbs, hbd, hsn, hdep, h3, h4, flushSymbols_nil]
      · have hsym : ok.sym = true := h1.resolve_left hbs
        by_cases hbd : pending.dependencies = []
        · simp [syncerFlushOnce, hbn, hbs, hbd, hsn, hsym, h3, h4, flushDependencies_nil]
        · have hdep : ok.dep = true := h2.resolve_left hbd
          simp [syncerFlushOnce, hbn, hbs, hbd, hsn, hsym, hdep, h3, h4]

theorem syncer_open_fail_terminates_witness :
    (c2Buffers.dependencies ≠ [] ∧ c2Open.dep = false ∧ c2Buffers.symbolNames ≠ []) ∧
    ((syncerIteration false c2Open c2Stores c2Buffers).1.dependencyStore =
        c2Stores.dependencyStore ∧
      (syncerIteration false c2Open c2Stores c2Buffers).1.fileInfoStore =
        c2Stores.fileInfoStore ∧
      (syncerIteration false c2Open c2Stores c2Buffers).1.symbolNameStore =
        flushSymbolNames c2Stores.symbolNameStore c2Buffers.symbolNames ∧
      (syncerIteration false c2Open c2Stores c2Buffers).1.symbolStore =
        flushSymbols c2Stores.symbolStore c2Buffers.symbols ∧
      (syncerIteration false c2Open c2Stores c2Buffers).2.1 = SyncerBuffers.empty ∧
      (syncerIteration false c2Open c2Stores c2Buffers).2.2 = SyncStatus.terminated) :=
  ⟨⟨by decide, rfl, by decide⟩,
    (syncer_open_fail_terminates c2Open c2Stores c2Buffers).2.2.1
      (Or.inr rfl) (Or.inl rfl) (by decide) rfl (Or.inr (by decide))⟩

/-- Claim C4 — counterexample.  With the symbols and symbol-names buffers
empty but the dependency buffer non-empty, the flusher passes end in a wait:
line 136 tests only `mSymbols` and `mSymbolNames`, while the claim said the
flusher waits only when all four buffers are empty. -/
theorem flusher_waits_with_nonempty_dependency_cex :
    (syncerIteration false ⟨true, true, true, true⟩ ⟨[], [], [], []⟩
        ⟨[], [], [("/x.h", {"/x.cpp"})], []⟩).2.2 = SyncStatus.waited ∧
    ([("/x.h", ({"/x.cpp"} : Finset String))] : List (String × Finset String)) ≠ [] := by
  decide

/-- Claim C4 — amended.  The flusher waits exactly when both the symbols and
the symbol-names buffers are empty; whenever one of those two is non-empty
(and stop is unset) the pass does not wait and swaps all four buffers out,
leaving the pending buffers empty. -/
theorem flusher_proceeds_iff_symbol_buffers (ok : OpenOk) (st : Stores)
    (pending : SyncerBuffers)
    (h : pending.symbols ≠ [] ∨ pending.symbolNames ≠ []) :
    (syncerIteration false ok st pending).2.2 ≠ SyncStatus.waited ∧
    (syncerIteration false ok st pending).2.1 = SyncerBuffers.empty := by
  have hw : flusherWaits pending = false := by
    unfold flusherWaits
    rcases pending with ⟨s, sn, d, i⟩
    rcases h with h | h
    · cases s with
      | nil => simp at h
      | cons a t => simp
    · cases sn with
      | nil => simp at h
      | cons a t => simp
  unfold syncerIteration
  rw [if_neg (by simp : ¬ (false = true))]
  rw [if_neg (by simp [hw] : ¬ (flusherWaits ⟨pending.symbols, pending.symbolNames,
    pending.dependencies, pending.informations⟩ = true))]
  cases hr : (syncerFlushOnce ok st pending).2 <;> simp [hr]

theorem flusher_proceeds_iff_symbol_buffers_witness :
    (([] : List (Location × CursorInfo)) ≠ [] ∨
      [("foo", ({⟨"/a.cpp", 1⟩} : Finset Location))] ≠ []) ∧
    (syncerIteration false ⟨true, true, true, true⟩ ⟨[], [], [], []⟩
        ⟨[], [("foo", {⟨"/a.cpp", 1⟩})], [], []⟩).2.2 ≠ SyncStatus.waited :=
  ⟨Or.inr (by decide),
    (flusher_proceeds_iff_symbol_buffers _ _ _ (Or.inr (by decide))).1⟩

/-- Claim C6.  A flush whose buffers add nothing new — every buffered
symbol-name and dependency set already contained in the stored one, every
buffered CursorInfo leaving `unite` unchanged, every buffered file
information equal to the stored record — leaves all four tables exactly as
they were and does not terminate the flusher. -/
theorem flush_idempotent_when_nothing_new (st : Stores) (b : SyncerBuffers)
    (hsn : ∀ e ∈ b.symbolNames, e.2 ⊆ lookupSet st.symbolNameStore e.1)
    (hsym : ∀ e ∈ b.symbols, ((lookupInfo st.symbolStore e.1).unite e.2).2 = false)
    (hdep : ∀ e ∈ b.dependencies, e.2 ⊆ lookupPaths st.dependencyStore e.1)
    (hfi : ∀ e ∈ b.informations,
      st.fileInfoStore.any (fun x => decide (x.1 = e.1)) = true ∧
      ∀ x ∈ st.fileInfoStore, x.1 = e.1 → x.2 = e.2) :
    syncerFlushOnce ⟨true, true, true, true⟩ st b = (st, false) := by
  have h1 : flushSymbolNames st.symbolNameStore b.symbolNames = st.symbolNameStore :=
    flushSymbolNames_self _ _ hsn
  have h2 : flushSymbols st.symbolStore b.symbols = st.symbolStore :=
    flushSymbols_self _ _ hsym
  have h3 : flushDependencies st.dependencyStore b.dependencies = st.dependencyStore :=
    flushDependencies_self _ _ hdep
  have h4 : applyBatch st.fileInfoStore b.informations = st.fileInfoStore :=
    applyBatch_self _ _ (fun e he => storePut_self _ _ _ (hfi e he).1 (hfi e he).2)
  have e1 : ({ st with symbolNameStore := st.symbolNameStore } : Stores) = st := rfl
  have e2 : ({ st with symbolStore := st.symbolStore } : Stores) = st := rfl
  have e3 : ({ st with dependencyStore := st.dependencyStore } : Stores) = st := rfl
  have e4 : ({ st with fileInfoStore := st.fileInfoStore } : Stores) = st := rfl
  unfold syncerFlushOnce
  simp [h1, h2, h3, h4, e1, e2, e3, e4]

theorem flush_idempotent_when_nothing_new_witness :
    (∀ e ∈ [("foo", ({⟨"/a.cpp", 1⟩} : Finset Location))],
      e.2 ⊆ lookupSet [("foo", {⟨"/a.cpp", 1⟩})] e.1) ∧
    syncerFlushOnce ⟨true, true, true, true⟩
        ⟨[(⟨"/a.cpp", 1⟩, ⟨8, 3, none, {⟨"/b.cpp", 2⟩}⟩)],
         [("foo", {⟨"/a.cpp", 1⟩})],
         [("/a.cpp", {"/a.cpp"})],
         [("/a.cpp", ["-x", "c++"])]⟩
        ⟨[(⟨"/a.cpp", 1⟩, ⟨8, 3, none, {⟨"/b.cpp", 2⟩}⟩)],
         [("foo", {⟨"/a.cpp", 1⟩})],
         [("/a.cpp", {"/a.cpp"})],
         [("/a.cpp", ["-x", "c++"])]⟩ =
      (⟨[(⟨"/a.cpp", 1⟩, ⟨8, 3, none, {⟨"/b.cpp", 2⟩}⟩)],
        [("foo", {⟨"/a.cpp", 1⟩})],
        [("/a.cpp", {"/a.cpp"})],
        [("/a.cpp", ["-x", "c++"])]⟩, false) :=
  ⟨by decide,
    flush_idempotent_when_nothing_new _ _ (by decide) (by decide) (by decide) (by decide)⟩

theorem allocId_spec (jobs : Finset Nat) :
    ∀ n start, (jobs.filter (fun i => start ≤ i)).card ≤ n →
      allocId jobs start ∉ jobs ∧ start ≤ allocId jobs start ∧
      ∀ i, start ≤ i → i < allocId jobs start → i ∈ jobs := by
  intro n
  induction n with
  | zero =>
    intro start h
    have hs : start ∉ jobs := by
      intro hmem
      have hin : start ∈ jobs.filter (fun i => start ≤ i) :=
        Finset.mem_filter.mpr ⟨hmem, le_refl _⟩
      have := Finset.card_pos.mpr ⟨start, hin⟩
      omega
    rw [allocId, dif_neg hs]
    exact ⟨hs, le_refl _, fun i h1 h2 => absurd h2 (by omega)⟩
  | succ n ih =>
    intro start h
    by_cases hs : start ∈ jobs
    · have hcard : (jobs.filter (fun i => start + 1 ≤ i)).card ≤ n := by
        have hss : jobs.filter (fun i => start + 1 ≤ i) ⊂ jobs.filter (fun i => start ≤ i) := by
          rw [Finset.ssubset_def]
          constructor
          · intro i hi
            simp only [Finset.mem_filter] at hi ⊢
            exact ⟨hi.1, by omega⟩
          · intro hsub
            have hstart : start ∈ jobs.filter (fun i => start ≤ i) :=
              Finset.mem_filter.mpr ⟨hs, le_refl _⟩
            have := hsub hstart
            simp only [Finset.mem_filter] at this
            omega
        have := Finset.card_lt_card hss
        omega
      obtain ⟨h1, h2, h3⟩ := ih (start + 1) hcard
      rw [allocId, dif_pos hs]
      refine ⟨h1, by omega, ?_⟩
      intro i hi1 hi2
      by_cases hie : i = start
      · rw [hie]; exact hs
      · exact h3 i (by omega) hi2
    · rw [allocId, dif_neg hs]
      exact ⟨hs, le_refl _, fun i h1 h2 => absurd h2 (by omega)⟩

theorem allocId_not_mem (jobs : Finset Nat) (start : Nat) : allocId jobs start ∉ jobs :=
  (allocId_spec jobs _ start (le_refl _)).1

theorem allocId_ge (jobs : Finset Nat) (start : Nat) : start ≤ allocId jobs start :=
  (allocId_spec jobs _ start (le_refl _)).2.1

theorem allocId_min (jobs : Finset Nat) (start : Nat) :
    ∀ i, start ≤ i → i < allocId jobs start → i ∈ jobs :=
  (allocId_spec jobs _ start (le_refl _)).2.2

/-- Claim C3 — counterexample.  With no job in flight, no id in use and
`lastJobId = 1` (a legal state once the job with id 0 has completed),
`index` hands out id 1 although id 0 is unused: the allocation loop starts
at `lastJobId`, not at the lowest unused id. -/
theorem index_not_lowest_id_cex :
    (Indexer.index ⟨∅, ∅, 1, 0, false⟩ "/a.cpp").1 = 1 ∧
    (0 : Nat) ∉ (⟨∅, ∅, 1, 0, false⟩ : CoordState).jobs := by
  constructor
  · unfold Indexer.index
    rw [if_neg (Finset.not_mem_empty _)]
    simp only
    rw [allocId, dif_neg (Finset.not_mem_empty _)]
    rfl
  · exact Finset.not_mem_empty _

/-- Claim C3 — amended.  `index(input, args)`: when `input` is already in
`indexing` the call returns −1 and changes nothing; otherwise it allocates
the first id at or after `last_job_id` that is not a live job id (advancing
`last_job_id` past it), inserts `input` into `indexing`, registers the job
under the id, starts the wall timer, and returns that id. -/
theorem index_allocates_from_lastJobId (st : CoordState) (input : String) :
    (input ∈ st.indexing → Indexer.index st input = (-1, st)) ∧
    (input ∉ st.indexing →
      (Indexer.index st input).1 = Int.ofNat (allocId st.jobs st.lastJobId) ∧
      allocId st.jobs st.lastJobId ∉ st.jobs ∧
      st.lastJobId ≤ allocId st.jobs st.lastJobId ∧
      (∀ i, st.lastJobId ≤ i → i < allocId st.jobs st.lastJobId → i ∈ st.jobs) ∧
      (Indexer.index st input).2.indexing = insert input st.indexing ∧
      (Indexer.index st input).2.jobs = insert (allocId st.jobs st.lastJobId) st.jobs ∧
      (Indexer.index st input).2.lastJobId = allocId st.jobs st.lastJobId + 1 ∧
      (Indexer.index st input).2.timerRunning = true) := by
  constructor
  · intro h
    unfold Indexer.index
    rw [if_pos h]
  · intro h
    unfold Indexer.index
    rw [if_neg h]
    exact ⟨rfl, allocId_not_mem _ _, allocId_ge _ _, allocId_min _ _,
      rfl, rfl, rfl, rfl⟩

theorem index_allocates_from_lastJobId_witness :
    ("/a.cpp" ∉ (⟨∅, ∅, 1, 0, false⟩ : CoordState).indexing) ∧
    (Indexer.index ⟨∅, ∅, 1, 0, false⟩ "/a.cpp").1 =
      Int.ofNat (allocId (∅ : Finset Nat) 1) :=
  ⟨by decide,
    ((index_allocates_from_lastJobId ⟨∅, ∅, 1, 0, false⟩ "/a.cpp").2 (by decide)).1⟩

theorem qIndexOf_mem (args : List String) (x : String) (hmem : x ∈ args) :
    ∃ n : Nat, qIndexOf args x = (n : Int) ∧ args.get? n = some x := by
  induction args with
  | nil => cases hmem
  | cons a t ih =>
    by_cases ha : a = x
    · exact ⟨0, by simp [qIndexOf, ha], by simp [ha]⟩
    · have hmem' : x ∈ t := by
        rcases List.mem_cons.mp hmem with he | ht
        · exact absurd he.symm ha
        · exact ht
      obtain ⟨n, hn, hg⟩ := ih hmem'
      refine ⟨n + 1, ?_, by simpa using hg⟩
      simp only [qIndexOf, if_neg ha]
      rw [hn]
      rw [if_neg (by omega)]
      omega

/-- Claim C10 — counterexample.  Headers `p.h` (in `pchHeaderError`) and
`q.h` (being indexed): the first pass drops `-include-pch p.h` and then
waits on `q.h`; the second pass re-examines `p.h`, still in
`pchHeaderError` but no longer in the args, so `args.indexOf` returns −1 and
`Q_ASSERT(idx > 0)` fails (third component `false`), refuting the claim for
iterations re-entered after waiting. -/
theorem pch_assert_reentry_fails_cex :
    pchLoop [⟨{"p.h"}, {"q.h"}⟩, ⟨{"p.h"}, ∅⟩] ["p.h", "q.h"]
        ["-c", "-include-pch", "p.h", "-include-pch", "q.h"] =
      some (["-c", "-include-pch", "q.h"], false) := by
  decide

/-- Claim C10 — amended.  Whenever a header found in `pchHeaderError` still
occurs in the current args and every one of its occurrences is the value
following a `-include-pch` flag, `args.indexOf` finds it at an index
strictly greater than 0 — the assertion holds — and both `removeAt` calls
are in bounds.  (The assertion can fail only when the loop re-processes a
header whose flag/value pair was already removed, or when the header occurs
at index 0 of the args.) -/
theorem pch_assert_holds_when_pair_present (args : List String) (x : String)
    (hmem : x ∈ args)
    (hpair : ∀ j, j < args.length → args.get? j = some x →
      1 ≤ j ∧ args.get? (j - 1) = some "-include-pch") :
    0 < qIndexOf args x ∧
    (qIndexOf args x).toNat < args.length ∧
    (qIndexOf args x - 1).toNat < (args.eraseIdx (qIndexOf args x).toNat).length := by
  obtain ⟨n, hn, hg⟩ := qIndexOf_mem args x hmem
  have hlen : n < args.length := by
    rcases List.get?_eq_some.mp hg with ⟨hl, _⟩
    exact hl
  have h1 : 1 ≤ n := (hpair n hlen hg).1
  refine ⟨by rw [hn]; omega, ?_, ?_⟩
  · rw [hn]
    omega
  · rw [hn]
    have ht : ((n : Int)).toNat = n := by omega
    rw [ht, List.length_eraseIdx_of_lt hlen]
    have ht2 : ((n : Int) - 1).toNat = n - 1 := by omega
    rw [ht2]
    omega

theorem pch_assert_holds_when_pair_present_witness :
    ("p.h" ∈ ["-include-pch", "p.h"]) ∧
    0 < qIndexOf ["-include-pch", "p.h"] "p.h" :=
  ⟨by decide,
    (pch_assert_holds_when_pair_present ["-include-pch", "p.h"] "p.h" (by decide)
      (by decide)).1⟩

/-- Claim C7 — counterexample.  A header that is in `pchHeaderError` AND in
`indexing` takes the error branch (dropping the flag) and never sets `wait`:
the pass exits with `wait = false` and parsing begins while the header is
still in the indexing set, refuting the claim as stated. -/
theorem pch_gate_error_header_still_indexing_cex :
    (pchPass ⟨{"p.h"}, {"p.h"}⟩ ["p.h"] ["-include-pch", "p.h"]).2.1 = false ∧
    "p.h" ∈ ({"p.h"} : Finset String) := by
  decide

/-- Claim C7 — amended.  The wait loop exits (and parsing begins) only via a
pass that completes with `wait` unset; on such a pass, under the coordinator
state the pass read while holding `implMutex`, every `-include-pch` header of
the job is either in `pchHeaderError` (its flag and value having been dropped
from the args) or not in `indexing`.  A parse job therefore never begins
parsing while one of its PCH headers is in `indexing` and not in
`pchHeaderError`. -/
theorem pch_gate_exit_condition (env : PchEnv) (headers oldArgs : List String)
    (hexit : (pchPass env headers oldArgs).2.1 = false) :
    ∀ h0 ∈ headers, h0 ∈ env.err ∨ h0 ∉ env.idxg := by
  induction headers generalizing oldArgs with
  | nil =>
    intro h0 hm
    cases hm
  | cons hd tl ih =>
    intro h0 hm
    by_cases h1 : hd ∈ env.err
    · have hrec : (pchPass env tl
          (qRemoveAt (qRemoveAt oldArgs (qIndexOf oldArgs hd)) (qIndexOf oldArgs hd - 1))).2.1
            = false := by
        simp only [pchPass, if_pos h1] at hexit
        exact hexit
      rcases List.mem_cons.mp hm with he | ht
      · exact Or.inl (he ▸ h1)
      · exact ih _ hrec h0 ht
    · by_cases h2 : hd ∈ env.idxg
      · exfalso
        simp only [pchPass, if_neg h1, if_pos h2] at hexit
        cases hexit
      · have hrec : (pchPass env tl oldArgs).2.1 = false := by
          simp only [pchPass, if_neg h1, if_neg h2] at hexit
          exact hexit
        rcases List.mem_cons.mp hm with he | ht
        · exact Or.inr (he ▸ h2)
        · exact ih _ hrec h0 ht

theorem pch_gate_exit_condition_witness :
    ((pchPass ⟨{"e.h"}, ∅⟩ ["e.h"] ["-include-pch", "e.h"]).2.1 = false) ∧
    ("e.h" ∈ ({"e.h"} : Finset String) ∨ "e.h" ∉ (∅ : Finset String)) :=
  ⟨by decide,
    pch_gate_exit_condition ⟨{"e.h"}, ∅⟩ ["e.h"] ["-include-pch", "e.h"] (by decide)
      "e.h" (by decide)⟩

theorem depsFold_at (deps : String → Finset String) (k : String) (stack : List String) :
    (stack.foldl (fun d frame => depsInsert d k frame) deps) k = deps k ∪ stack.toFinset := by
  induction stack generalizing deps with
  | nil => simp
  | cons f fs ih =>
    simp only [List.foldl_cons]
    rw [ih]
    simp [depsInsert, Finset.insert_union, Finset.union_insert]

theorem depsFold_other (deps : String → Finset String) (k : String) (stack : List String)
    (q : String) (hq : q ≠ k) :
    (stack.foldl (fun d frame => depsInsert d k frame) deps) q = deps q := by
  induction stack generalizing deps with
  | nil => rfl
  | cons f fs ih =>
    simp only [List.foldl_cons]
    rw [ih]
    simp [depsInsert, hq]

/-- Claim C8.  For an included file passing the visitor's guard (its name not
under `/usr/` unless under `/usr/home/`, and contained in no default
argument): an edge `included → frame` is recorded for every frame of the
include stack, under the key of the included file only; with an empty stack
the self-edge is recorded instead, so starting from an empty map a file that
includes nothing maps to the singleton set containing itself. -/
theorem inclusionVisitor_records_edges (defaultArgs : List String) (isPch : Bool)
    (deps : String → Finset String) (pchDeps : Finset String)
    (fileName : String) (stack : List String)
    (hf : includeFilter defaultArgs fileName = true) :
    (inclusionVisitor defaultArgs isPch deps pchDeps fileName stack).1 fileName =
      deps fileName ∪ stack.toFinset ∪ (if stack = [] then {fileName} else ∅) ∧
    (∀ q, q ≠ fileName →
      (inclusionVisitor defaultArgs isPch deps pchDeps fileName stack).1 q = deps q) ∧
    (deps fileName = ∅ → stack = [] →
      (inclusionVisitor defaultArgs isPch deps pchDeps fileName stack).1 fileName =
        {fileName}) := by
  have h1 : (inclusionVisitor defaultArgs isPch deps pchDeps fileName stack).1 fileName =
      deps fileName ∪ stack.toFinset ∪ (if stack = [] then {fileName} else ∅) := by
    cases stack with
    | nil =>
      simp [inclusionVisitor, hf, depsInsert, Finset.insert_eq, Finset.union_comm]
    | cons f fs =>
      simp [inclusionVisitor, hf, depsFold_at, depsInsert, Finset.insert_union]
  have h2 : ∀ q, q ≠ fileName →
      (inclusionVisitor defaultArgs isPch deps pchDeps fileName stack).1 q = deps q := by
    intro q hq
    cases stack with
    | nil => simp [inclusionVisitor, hf, depsInsert, hq]
    | cons f fs =>
      simp [inclusionVisitor, hf, depsFold_other _ _ _ _ hq, depsInsert, hq]
  refine ⟨h1, h2, ?_⟩
  intro hd hs
  rw [h1, hd, hs]
  simp

theorem inclusionVisitor_records_edges_witness :
    (includeFilter [] "/src/a.cpp" = true) ∧
    (inclusionVisitor [] false (fun _ => ∅) ∅ "/src/a.cpp" []).1 "/src/a.cpp" =
      {"/src/a.cpp"} :=
  ⟨by decide,
    (inclusionVisitor_records_edges [] false (fun _ => ∅) ∅ "/src/a.cpp" []
      (by decide)).2.2 rfl rfl⟩

theorem dirtied_references (c : CursorInfo) (dirty : Finset String) :
    (c.dirtied dirty).1.references = c.references.filter (fun l => l.path ∉ dirty) := rfl

theorem dirtied_target_some (c : CursorInfo) (dirty : Finset String) (l : Location)
    (h : (c.dirtied dirty).1.target = some l) : l.path ∉ dirty := by
  unfold CursorInfo.dirtied at h
  simp only at h
  cases hc : c.target with
  | none =>
    rw [hc] at h
    cases h
  | some l0 =>
    rw [hc] at h
    simp only at h
    by_cases hd : l0.path ∈ dirty
    · rw [if_pos hd] at h
      cases h
    · rw [if_neg hd] at h
      injection h with h
      rw [← h]
      exact hd

theorem dirtied_unchanged (c : CursorInfo) (dirty : Finset String)
    (h : (c.dirtied dirty).2 = false) : (c.dirtied dirty).1 = c := by
  unfold CursorInfo.dirtied at h ⊢
  simp only [decide_eq_false_iff_not, ne_eq, not_not] at h
  simpa using h

/-- Claim C5.  After the DirtyJob sweeps on dirty set D: every surviving
Symbol entry has a key path outside D, reference Locations all outside D and
a target (if any) outside D; a Symbol entry whose dirtied record changed and
became empty is staged for deletion; every surviving SymbolName value holds
only Locations outside D; and a non-empty SymbolName value emptied by the
removal is staged for deletion. -/
theorem dirtyJob_sweep_clears_dirty_paths (symStore : List (Location × CursorInfo))
    (snStore : List (String × Finset Location)) (dirty : Finset String) :
    (∀ e ∈ DirtyJob.dirtySymbols symStore dirty,
      e.1.path ∉ dirty ∧
      (∀ l ∈ e.2.references, l.path ∉ dirty) ∧
      (∀ l, e.2.target = some l → l.path ∉ dirty)) ∧
    (∀ e ∈ symStore,
      (e.2.dirtied dirty).2 = true → (e.2.dirtied dirty).1.target = none →
      (e.2.dirtied dirty).1.references = ∅ →
      sweepSymbolEntry dirty e = none) ∧
    (∀ e ∈ DirtyJob.dirtySymbolNames snStore dirty, ∀ l ∈ e.2, l.path ∉ dirty) ∧
    (∀ e ∈ snStore, e.2 ≠ ∅ → e.2.filter (fun l => l.path ∉ dirty) = ∅ →
      sweepSymbolNameEntry dirty e = none) := by
  refine ⟨?_, ?_, ?_, ?_⟩
  · intro e he
    rcases List.mem_filterMap.mp he with ⟨a, _, hfa⟩
    unfold sweepSymbolEntry at hfa
    by_cases hd : a.1.path ∈ dirty
    · rw [if_pos hd] at hfa
      cases hfa
    · rw [if_neg hd] at hfa
      simp only at hfa
      have hkey : e.1 = a.1 ∧ e.2 = (a.2.dirtied dirty).1 := by
        by_cases hch : (a.2.dirtied dirty).2 = true
        · rw [if_pos hch] at hfa
          by_cases hemp : (a.2.dirtied dirty).1.target = none ∧
              (a.2.dirtied dirty).1.references = ∅
          · rw [if_pos hemp] at hfa
            cases hfa
          · rw [if_neg hemp] at hfa
            injection hfa with hfa
            have he1 : e.1 = a.1 := by rw [← hfa]
            have he2 : e.2 = (a.2.dirtied dirty).1 := by rw [← hfa]
            exact ⟨he1, he2⟩
        · rw [if_neg hch] at hfa
          injection hfa with hfa
          have hb : (a.2.dirtied dirty).2 = false := by simpa using hch
          have hu : (a.2.dirtied dirty).1 = a.2 := dirtied_unchanged _ _ hb
          refine ⟨(congrArg Prod.fst hfa).symm, ?_⟩
          rw [← hfa]
          exact hu.symm
      refine ⟨hkey.1 ▸ hd, ?_, ?_⟩
      · intro l hl
        rw [hkey.2, dirtied_references] at hl
        exact (Finset.mem_filter.mp hl).2
      · intro l hl
        rw [hkey.2] at hl
        exact dirtied_target_some _ _ _ hl
  · intro e _ h1 h2 h3
    unfold sweepSymbolEntry
    by_cases hd : e.1.path ∈ dirty
    · rw [if_pos hd]
    · rw [if_neg hd]
      simp only
      rw [if_pos h1, if_pos ⟨h2, h3⟩]
  · intro e he l hl
    rcases List.mem_filterMap.mp he with ⟨a, _, hfa⟩
    unfold sweepSymbolNameEntry at hfa
    simp only at hfa
    by_cases hch : a.2.filter (fun l => l.path ∉ dirty) ≠ a.2
    · rw [if_pos hch] at hfa
      by_cases hemp : a.2.filter (fun l => l.path ∉ dirty) = ∅
      · rw [if_pos hemp] at hfa
        cases hfa
      · rw [if_neg hemp] at hfa
        injection hfa with hfa
        have h2 : e.2 = a.2.filter (fun l => l.path ∉ dirty) :=
          congrArg Prod.snd hfa.symm
        rw [h2] at hl
        exact (Finset.mem_filter.mp hl).2
    · rw [if_neg hch] at hfa
      injection hfa with hfa
      rw [not_not] at hch
      have h2 : e.2 = a.2 := congrArg Prod.snd hfa.symm
      rw [h2, ← hch] at hl
      exact (Finset.mem_filter.mp hl).2
  · intro e _ hne hfe
    unfold sweepSymbolNameEntry
    simp only
    rw [if_pos (by rw [hfe]; exact fun h => hne h.symm), if_pos hfe]

theorem dirtyJob_sweep_clears_dirty_paths_witness :
    ((⟨"/a.cpp", 1⟩, (⟨8, 3, some ⟨"/b.cpp", 5⟩, {⟨"/c.cpp", 7⟩}⟩ : CursorInfo)) ∈
      DirtyJob.dirtySymbols
        [(⟨"/a.cpp", 1⟩, ⟨8, 3, some ⟨"/b.cpp", 5⟩, {⟨"/d.cpp", 9⟩, ⟨"/c.cpp", 7⟩}⟩),
         (⟨"/d.cpp", 3⟩, ⟨8, 3, none, {⟨"/a.cpp", 1⟩}⟩)] {"/d.cpp"}) ∧
    ("/a.cpp" ∉ ({"/d.cpp"} : Finset String)) :=
  ⟨by decide,
    ((dirtyJob_sweep_clears_dirty_paths
        [(⟨"/a.cpp", 1⟩, ⟨8, 3, some ⟨"/b.cpp", 5⟩, {⟨"/d.cpp", 9⟩, ⟨"/c.cpp", 7⟩}⟩),
         (⟨"/d.cpp", 3⟩, ⟨8, 3, none, {⟨"/a.cpp", 1⟩}⟩)] [] {"/d.cpp"}).1
      (⟨"/a.cpp", 1⟩, ⟨8, 3, some ⟨"/b.cpp", 5⟩, {⟨"/c.cpp", 7⟩}⟩) (by decide)).1⟩

/-- Claim C9 — code-bug evidence.  One watched directory holding one stale
file with no entry in the dependency map: the handler marks it dirty, erases
it from the watched set, logs the miss — and then executes `++it` on the
WatchedHash iterator (line 950), not on the set iterator `wit`.  When the
scan finishes, the re-arm of the pending files (line 975) goes through
`it.value()` with `it` now past the end: the embedding reports the undefined
iterator use instead of the normal completion the claim describes. -/
theorem onDirectoryChanged_dependency_miss_corrupts_iteration :
    Indexer.onDirectoryChanged true [] [] []
        [("/tmp/proj/", [⟨"f.cpp", 5⟩])] "/tmp/proj/" = DirResult.invalidIter := by
  decide
